import Mathlib

/-!
Verification of the Jump-And-Win run-time simulation core (src/main.py):
player physics, jump / double-jump, shield, obstacle movement and scoring,
the anti-cheat monitor, and the economy ledger (entry fee, daily pot,
end-of-day settlement).

Modelling conventions:
* pygame floats (`y`, `vel_y`, obstacle `x`, elapsed seconds, speeds) are
  modelled as exact rationals;
* `random.randint` outputs (obstacle width/height) and the frame clock
  (`elapsed`) are explicit inputs of the step functions;
* sounds, particles, the trail and all rendering are presentation-only and
  are omitted; `pygame.Rect` integer truncation is modelled by `pyInt`;
* the per-frame logic of `game_loop` is split into named steps in the exact
  order of the source: anti-cheat check, event handling, then (when not
  game over) physics, shield tick, spawn, obstacle move/retire/score,
  collision, daily-winner update.
-/

/-- Screen width in pixels (`WIDTH` in src/main.py). -/
def WIDTH : ℚ := 800

/-- Screen height in pixels (`HEIGHT` in src/main.py). -/
def HEIGHT : ℚ := 600

/-- Constant gravity added to the vertical velocity every frame. -/
def GRAVITY : ℚ := 0.6

/-- Vertical velocity given by a ground jump (negative is upward). -/
def BASE_JUMP_POWER : ℚ := -12

/-- Base leftward speed of obstacles. -/
def BASE_OBSTACLE_SPEED : ℚ := 5

/-- Entry fee charged at session start. -/
def PLAY_COST : ℤ := 10

/-- Integer truncation toward zero, as applied when a Python float is stored
into a `pygame.Rect` coordinate. -/
def pyInt (q : ℚ) : ℤ := q.num.tdiv q.den

/-- An integer axis-aligned rectangle (`pygame.Rect`). -/
structure Rect where
  x : ℤ
  y : ℤ
  w : ℤ
  h : ℤ
deriving DecidableEq

/-- Bounding-box overlap test (`pygame.Rect.colliderect`). -/
def colliderect (a b : Rect) : Bool :=
  decide (a.x < b.x + b.w) && decide (b.x < a.x + a.w) &&
  decide (a.y < b.y + b.h) && decide (b.y < a.y + a.h)

/-- The running player (class `Player` in src/main.py). The `trail`, colour
and cached rect are presentation-only and omitted; the rect is recomputed
from the position by `Player.rect`. -/
structure Player where
  width : ℚ
  height : ℚ
  x : ℚ
  y : ℚ
  vel_y : ℚ
  on_ground : Bool
  jumps_available : ℤ
  shield_active : Bool
deriving DecidableEq

/-- The freshly constructed player (`Player.__init__`). -/
def Player.init : Player :=
  { width := 50, height := 50, x := 100, y := HEIGHT - 50 - 50, vel_y := 0,
    on_ground := true, jumps_available := 1, shield_active := false }

/-- `Player.jump`: ground jump sets velocity to `BASE_JUMP_POWER`, leaves the
ground and sets `jumps_available` to 0; otherwise, if a jump is available,
an air jump at `0.8 ×` power consumes it; otherwise no-op. Particles and
sound are cosmetic and omitted. -/
def Player.jump (p : Player) : Player :=
  if p.on_ground then
    { p with vel_y := BASE_JUMP_POWER, on_ground := false, jumps_available := 0 }
  else if 0 < p.jumps_available then
    { p with vel_y := BASE_JUMP_POWER * 0.8,
             jumps_available := p.jumps_available - 1 }
  else p

/-- `Player.update`: apply gravity, integrate the position, and clamp to the
ground line (`HEIGHT - height - 50`), zeroing the velocity, grounding the
player and replenishing the jump charge when the ground is reached. -/
def Player.update (p : Player) : Player :=
  let v := p.vel_y + GRAVITY
  let y := p.y + v
  if HEIGHT - p.height - 50 ≤ y then
    { p with y := HEIGHT - p.height - 50, vel_y := 0, on_ground := true,
             jumps_available := 1 }
  else
    { p with y := y, vel_y := v }

/-- The player's bounding box (`self.rect`). -/
def Player.rect (p : Player) : Rect :=
  ⟨pyInt p.x, pyInt p.y, pyInt p.width, pyInt p.height⟩

/-- An obstacle (class `Obstacle`): randomized width/height, ground aligned,
moving left. -/
structure Obstacle where
  width : ℕ
  height : ℕ
  x : ℚ
  y : ℚ
deriving DecidableEq

/-- `Obstacle.__init__`, with the `random.randint` outcomes `w`, `h` passed
in explicitly. -/
def Obstacle.spawn (w h : ℕ) : Obstacle :=
  { width := w, height := h, x := WIDTH, y := HEIGHT - h - 50 }

/-- `Obstacle.update`: move left by the current speed. -/
def Obstacle.move (speed : ℚ) (o : Obstacle) : Obstacle :=
  { o with x := o.x - speed }

/-- The obstacle's bounding box (`self.rect`). -/
def Obstacle.rect (o : Obstacle) : Rect :=
  ⟨pyInt o.x, pyInt o.y, o.width, o.height⟩

/-- A persisted player record (row of the `users` table). -/
structure Account where
  balance : ℤ
  daily_score : ℤ
  high_score : ℤ
  shield : ℤ
  double_jump : ℤ
deriving DecidableEq

/-- A freshly created user (`db_create_user` with the default balance). -/
def Account.init : Account :=
  { balance := 100, daily_score := 0, high_score := 0, shield := 0,
    double_jump := 0 }

/-- The full state of one running session of `game_loop`, together with the
process-wide daily pot and daily winner it reads and writes. -/
structure Session where
  username : String
  player : Player
  obstacles : List Obstacle
  spawn_timer : ℕ
  score : ℕ
  game_over : Bool
  cheat_detected : Bool
  shield_timer : ℤ
  user : Account
  daily_pot : ℤ
  daily_winner : Option (String × ℤ)
deriving DecidableEq

/-- The three logical input commands plus an irrelevant key, as decoded from
pygame key events by `game_loop` (SPACE, X, D). -/
inductive GEvent
  | space
  | keyX
  | keyD
  | other
deriving DecidableEq

/-- A session outcome as returned by `game_loop` (`score`, `"cheat"`,
`"end_day"`). -/
inductive Outcome
  | score (n : ℕ)
  | cheat
  | endDay
deriving DecidableEq

/-- Result of running one (or several) frames: either the loop continues
with a new state, or `game_loop` returned with an outcome. The final state
is carried along so that its observable fields can be reasoned about. -/
inductive FrameResult
  | cont (s : Session)
  | ret (o : Outcome) (s : Session)
deriving DecidableEq

/-- The session state carried by a frame result. -/
def FrameResult.state : FrameResult → Session
  | .cont s => s
  | .ret _ s => s

/-- The outcome carried by a frame result, if the loop returned. -/
def FrameResult.out : FrameResult → Option Outcome
  | .cont _ => none
  | .ret o _ => some o

/-- Session entry (`game_loop` before the main loop): if the persisted
balance is below `PLAY_COST` the session fails (the caller's account and the
daily pot are untouched); otherwise the fee is debited from the balance,
credited to the daily pot, and a fresh session state is created. -/
def sessionStart (username : String) (user : Account) (pot : ℤ)
    (winner : Option (String × ℤ)) : Option Session :=
  if user.balance < PLAY_COST then none
  else some
    { username := username, player := Player.init, obstacles := [],
      spawn_timer := 0, score := 0, game_over := false,
      cheat_detected := false, shield_timer := 0,
      user := { user with balance := user.balance - PLAY_COST },
      daily_pot := pot + PLAY_COST, daily_winner := winner }

/-- The anti-cheat monitor at the top of each frame: with `elapsed` seconds
since session start, flags a cheat and forces game over when
`score / elapsed > 5`. -/
def antiCheatStep (elapsed : ℚ) (s : Session) : Session :=
  if 0 < elapsed ∧ 5 < (s.score : ℚ) / elapsed then
    { s with cheat_detected := true, game_over := true }
  else s

/-- The X-key handler: activate the shield only when at least one charge is
owned and the shield is not already active; consumes one charge and sets the
timer to 120 ticks, otherwise a no-op. -/
def activateShield (s : Session) : Session :=
  if 0 < s.user.shield ∧ s.player.shield_active = false then
    { s with user := { s.user with shield := s.user.shield - 1 },
             player := { s.player with shield_active := true },
             shield_timer := 120 }
  else s

/-- The event loop of one frame, processing the decoded key events in order.
SPACE returns from `game_loop` when the game is over (outcome `"cheat"` if
the cheat flag is set, the score otherwise) and jumps otherwise; X tries to
activate the shield; D returns `"end_day"` immediately. -/
def handleEvents : Session → List GEvent → FrameResult
  | s, [] => .cont s
  | s, GEvent.space :: rest =>
      if s.game_over then
        .ret (if s.cheat_detected then Outcome.cheat else Outcome.score s.score) s
      else handleEvents { s with player := s.player.jump } rest
  | s, GEvent.keyX :: rest => handleEvents (activateShield s) rest
  | s, GEvent.keyD :: _ => .ret Outcome.endDay s
  | s, GEvent.other :: rest => handleEvents s rest

/-- The per-frame shield logic: while the shield is active the timer is
decremented, and the flag is cleared when it reaches zero. -/
def shieldStep (s : Session) : Session :=
  if s.player.shield_active then
    let t := s.shield_timer - 1
    if t ≤ 0 then
      { s with shield_timer := t,
               player := { s.player with shield_active := false } }
    else { s with shield_timer := t }
  else s

/-- The spawn logic: the timer increments each frame and, past the
score-dependent threshold `max(60, 90 - score // 2)`, one obstacle with the
given random dimensions is appended and the timer resets. -/
def spawnStep (w h : ℕ) (s : Session) : Session :=
  let t := s.spawn_timer + 1
  if max 60 (90 - (s.score : ℤ) / 2) < (t : ℤ) then
    { s with obstacles := s.obstacles ++ [Obstacle.spawn w h], spawn_timer := 0 }
  else { s with spawn_timer := t }

/-- The obstacle update loop: each obstacle moves left by the current speed;
an obstacle whose right edge passes the left screen edge is removed and
scores exactly one point. Survivors keep their order. -/
def moveObstacles (speed : ℚ) : List Obstacle → ℕ → List Obstacle × ℕ
  | [], score => ([], score)
  | o :: rest, score =>
      let o1 := o.move speed
      if o1.x + (o1.width : ℚ) < 0 then moveObstacles speed rest (score + 1)
      else
        let r := moveObstacles speed rest score
        (o1 :: r.1, r.2)

/-- The collision loop: when the shield is not active and any obstacle's box
overlaps the player's box, the run transitions to game over. Nothing else
is modified. -/
def collideStep (s : Session) : Session :=
  if s.player.shield_active = false ∧
      s.obstacles.any (fun o => colliderect s.player.rect o.rect) then
    { s with game_over := true }
  else s

/-- The daily-winner update: when the session score exceeds the player's
best-score-today, that field is updated and the daily winner is replaced if
the score is strictly greater than the recorded best. -/
def dailyStep (s : Session) : Session :=
  if s.user.daily_score < (s.score : ℤ) then
    { s with user := { s.user with daily_score := (s.score : ℤ) },
             daily_winner :=
               match s.daily_winner with
               | none => some (s.username, (s.score : ℤ))
               | some w =>
                   if w.2 < (s.score : ℤ) then some (s.username, (s.score : ℤ))
                   else some w }
  else s

/-- The simulation part of one frame (the `if not game_over:` block), in
source order: physics, shield tick, current speed from the score, spawn,
obstacle move/retire/score, collision, daily-winner update. `w`, `h` are
the dimensions a spawned obstacle would get. -/
def simStep (w h : ℕ) (s : Session) : Session :=
  if s.game_over then s
  else
    let s1 := { s with player := s.player.update }
    let s2 := shieldStep s1
    let speed := BASE_OBSTACLE_SPEED + (s2.score : ℚ) * 0.05
    let s3 := spawnStep w h s2
    let ms := moveObstacles speed s3.obstacles s3.score
    let s4 := { s3 with obstacles := ms.1, score := ms.2 }
    let s5 := collideStep s4
    dailyStep s5

/-- One full iteration of the `while True:` loop of `game_loop`: anti-cheat
check, event handling (which may return), then the simulation step. -/
def frame (elapsed : ℚ) (events : List GEvent) (w h : ℕ) (s : Session) :
    FrameResult :=
  match handleEvents (antiCheatStep elapsed s) events with
  | .cont s1 => .cont (simStep w h s1)
  | r => r

/-- The per-frame external inputs: the clock reading and the decoded events,
plus the dimensions a spawned obstacle would receive. -/
structure FrameInput where
  elapsed : ℚ
  events : List GEvent
  spawnW : ℕ
  spawnH : ℕ
deriving DecidableEq

/-- Run a sequence of frames until `game_loop` returns or inputs run out. -/
def runFrames : Session → List FrameInput → FrameResult
  | s, [] => .cont s
  | s, i :: rest =>
      match frame i.elapsed i.events i.spawnW i.spawnH s with
      | .cont s1 => runFrames s1 rest
      | r => r

/-- The process-wide state seen by `end_of_day`: the persisted accounts
(keyed by username, `none` when absent), the volatile daily pot and winner,
and the operator-owned balance. -/
structure World where
  accounts : String → Option Account
  daily_pot : ℤ
  daily_winner : Option (String × ℤ)
  owner_balance : ℤ

/-- `db_update_user`: overwrite one user's persisted record. -/
def dbUpdateUser (accounts : String → Option Account) (name : String)
    (a : Account) : String → Option Account :=
  fun u => if u = name then some a else accounts u

/-- The winner-payout half of `end_of_day`: when a daily winner exists and
is found in the store, the winner's balance is credited with
`daily_pot // 2` (floor division) and the remainder accrues to the operator
balance; otherwise nothing changes. -/
def settleWinner (w : World) : World :=
  match w.daily_winner with
  | some nw =>
      match w.accounts nw.1 with
      | some a =>
          let reward := w.daily_pot.fdiv 2
          { w with
            accounts := dbUpdateUser w.accounts nw.1
              { a with balance := a.balance + reward },
            owner_balance := w.owner_balance + (w.daily_pot - reward) }
      | none => w
  | none => w

/-- `end_of_day`: pay the daily winner (if any), then clear the pot and the
winner and reset every user's best-score-today to zero. -/
def end_of_day (w : World) : World :=
  let w1 := settleWinner w
  { w1 with daily_pot := 0, daily_winner := none,
            accounts := fun u => (w1.accounts u).map
              (fun a => { a with daily_score := 0 }) }

/-- Player states reachable by the operations the session applies to the
player: the initial state, jumps, physics updates, and setting the shield
flag (done by `activateShield` and `shieldStep`). -/
inductive PReach : Player → Prop
  | init : PReach Player.init
  | jump {p : Player} : PReach p → PReach p.jump
  | update {p : Player} : PReach p → PReach p.update
  | shield {p : Player} (b : Bool) : PReach p →
      PReach { p with shield_active := b }

/-- The physics invariant of reachable player states: grounded states sit on
the ground line with zero velocity and a full jump charge, and airborne
states have no jump charge left. -/
def PlayerInv (p : Player) : Prop :=
  (p.on_ground = true →
    p.vel_y = 0 ∧ p.jumps_available = 1 ∧ p.y = HEIGHT - p.height - 50)
  ∧ (p.on_ground = false → p.jumps_available = 0)

/-- A convenient concrete session (fresh player, fresh default account,
empty track, empty ledger) used to instantiate theorems. -/
def baseSession : Session :=
  { username := "alice", player := Player.init, obstacles := [],
    spawn_timer := 0, score := 0, game_over := false, cheat_detected := false,
    shield_timer := 0, user := Account.init, daily_pot := 0,
    daily_winner := none }

/-- Every reachable player state satisfies the physics invariant. -/
theorem preach_inv {p : Player} (h : PReach p) : PlayerInv p := by
  induction h with
  | init =>
      constructor
      · intro _
        refine ⟨rfl, rfl, ?_⟩
        norm_num [Player.init, HEIGHT]
      · intro hfalse
        simp [Player.init] at hfalse
  | @jump p h ih =>
      by_cases hg : p.on_ground = true
      · constructor
        · intro hc
          rw [Player.jump, if_pos hg] at hc
          simp at hc
        · intro _
          simp [Player.jump, hg]
      · have hg2 : p.on_ground = false := by
          revert hg; cases p.on_ground <;> simp
        have hj : p.jumps_available = 0 := ih.2 hg2
        have hjp : p.jump = p := by
          simp [Player.jump, hg2, hj]
        rw [hjp]
        exact ih
  | @update p h ih =>
      by_cases hcl : HEIGHT - p.height - 50 ≤ p.y + (p.vel_y + GRAVITY)
      · have : p.update =
            { p with y := HEIGHT - p.height - 50, vel_y := 0,
                     on_ground := true, jumps_available := 1 } := by
          simp [Player.update, hcl]
        rw [this]
        constructor
        · intro _
          exact ⟨rfl, rfl, rfl⟩
        · intro hfalse
          simp at hfalse
      · have hupd : p.update =
            { p with y := p.y + (p.vel_y + GRAVITY),
                     vel_y := p.vel_y + GRAVITY } := by
          simp [Player.update, hcl]
        rw [hupd]
        constructor
        · intro hgr
          exfalso
          apply hcl
          obtain ⟨hv, _, hy⟩ := ih.1 hgr
          rw [hv, hy]
          have hgrav : (0:ℚ) < GRAVITY := by norm_num [GRAVITY]
          linarith
        · intro hgr
          exact ih.2 hgr
  | @shield p b h ih =>
      constructor
      · intro hgr
        exact ih.1 hgr
      · intro hgr
        exact ih.2 hgr

/-- C1: the section 4.1 jump state machine. The ground jump in the code sets
`jumps_available` to 0 instead of keeping the extra charge, so after a
ground jump the mid-air jump is a silent no-op and the `0.8 ×` double-jump
branch is unreachable for every reachable player state: the claimed
"exactly one further mid-air jump succeeds" fails (zero succeed). -/
theorem c1_double_jump_dead :
    Player.init.jump.jumps_available = 0
  ∧ Player.init.jump.on_ground = false
  ∧ Player.init.jump.jump = Player.init.jump
  ∧ ∀ p : Player, PReach p → p.on_ground = false → p.jump = p := by
  refine ⟨by decide, by decide, ?_, ?_⟩
  · have hstep : Player.init.jump =
        { Player.init with vel_y := BASE_JUMP_POWER, on_ground := false,
                           jumps_available := 0 } := by
      simp [Player.jump, Player.init]
    rw [hstep]
    simp [Player.jump]
  · intro p hp hg
    have hj := (preach_inv hp).2 hg
    simp [Player.jump, hg, hj]

/-- Witness for C1 at the concrete airborne state reached by jumping from
the initial grounded state. -/
theorem c1_witness : Player.init.jump.jump = Player.init.jump :=
  c1_double_jump_dead.2.2.2 Player.init.jump (PReach.jump PReach.init)
    (by decide)

/-- C2: session start is atomic with respect to funds. With a balance below
`PLAY_COST` the start fails (no session state is created, so the caller's
account and pot are untouched); otherwise exactly `PLAY_COST` is debited
from the balance and credited to the daily pot, the other account fields
are untouched, and the run begins with score 0 and no game over. -/
theorem c2_session_start (username : String) (user : Account) (pot : ℤ)
    (winner : Option (String × ℤ)) :
    (user.balance < PLAY_COST → sessionStart username user pot winner = none)
  ∧ (PLAY_COST ≤ user.balance →
      ∃ s, sessionStart username user pot winner = some s
        ∧ s.user.balance = user.balance - PLAY_COST
        ∧ s.daily_pot = pot + PLAY_COST
        ∧ s.user.shield = user.shield
        ∧ s.user.double_jump = user.double_jump
        ∧ s.user.high_score = user.high_score
        ∧ s.user.daily_score = user.daily_score
        ∧ s.score = 0
        ∧ s.game_over = false) := by
  constructor
  · intro h
    simp [sessionStart, h]
  · intro h
    rw [sessionStart, if_neg (not_lt.mpr h)]
    exact ⟨_, rfl, rfl, rfl, rfl, rfl, rfl, rfl, rfl, rfl⟩

/-- Witness for C2: balance 5 cannot start a session; balance 100 starts
one with balance 90 and pot 10. -/
theorem c2_witness :
    sessionStart "alice" { Account.init with balance := 5 } 0 none = none
  ∧ ∃ s, sessionStart "alice" Account.init 0 none = some s
      ∧ s.user.balance = 90 ∧ s.daily_pot = 10 := by
  constructor
  · exact (c2_session_start "alice" { Account.init with balance := 5 } 0
      none).1 (by decide)
  · obtain ⟨s, hs, hb, hp, _⟩ :=
      (c2_session_start "alice" Account.init 0 none).2 (by decide)
    exact ⟨s, hs, by rw [hb]; decide, by rw [hp]; decide⟩

/-- C3: end-of-day settlement. With a winner that has an account, the
winner is credited exactly `⌊pot / 2⌋`, the remainder accrues to the
operator balance, and afterwards the pot is 0, the winner is cleared and
every account's best-score-today is 0; with no winner nothing is credited
but pot, winner and best-score-today are still cleared. -/
theorem c3_end_of_day_settlement (w : World) (name : String) (best : ℤ)
    (a : Account) :
    (w.accounts name = some a →
        (end_of_day { w with daily_winner := some (name, best) }).accounts name
          = some { a with balance := a.balance + w.daily_pot.fdiv 2,
                          daily_score := 0 }
      ∧ (end_of_day { w with daily_winner := some (name, best) }).owner_balance
          = w.owner_balance + (w.daily_pot - w.daily_pot.fdiv 2))
  ∧ (∀ u, (end_of_day { w with daily_winner := none }).accounts u
        = (w.accounts u).map (fun b => { b with daily_score := 0 }))
  ∧ (end_of_day { w with daily_winner := none }).owner_balance
      = w.owner_balance
  ∧ (end_of_day w).daily_pot = 0
  ∧ (end_of_day w).daily_winner = none
  ∧ (∀ u b, (end_of_day w).accounts u = some b → b.daily_score = 0) := by
  refine ⟨?_, ?_, ?_, rfl, rfl, ?_⟩
  · intro h
    constructor
    · simp [end_of_day, settleWinner, h, dbUpdateUser]
    · simp [end_of_day, settleWinner, h]
  · intro u
    simp [end_of_day, settleWinner]
  · simp [end_of_day, settleWinner]
  · intro u b hb
    have h2 : (end_of_day w).accounts u
        = ((settleWinner w).accounts u).map
            (fun a => { a with daily_score := 0 }) := rfl
    rw [h2] at hb
    cases hacc : (settleWinner w).accounts u with
    | none => rw [hacc] at hb; simp at hb
    | some c =>
        rw [hacc] at hb
        simp only [Option.map_some', Option.some.injEq] at hb
        rw [← hb]

/-- C5: `ActivateShield` succeeds exactly when a charge is owned and the
shield is not already active; on success it consumes one charge and sets
the 120-tick duration; otherwise it is a strict no-op, so the owned count
never becomes negative. It never touches the other account fields or the
score. -/
theorem c5_activate_shield (s : Session) :
    (0 < s.user.shield ∧ s.player.shield_active = false →
        (activateShield s).user.shield = s.user.shield - 1
      ∧ (activateShield s).player.shield_active = true
      ∧ (activateShield s).shield_timer = 120)
  ∧ (s.player.shield_active = true → activateShield s = s)
  ∧ (s.user.shield ≤ 0 → activateShield s = s)
  ∧ (0 ≤ s.user.shield → 0 ≤ (activateShield s).user.shield)
  ∧ (activateShield s).user.double_jump = s.user.double_jump
  ∧ (activateShield s).user.balance = s.user.balance
  ∧ (activateShield s).score = s.score := by
  refine ⟨?_, ?_, ?_, ?_, ?_, ?_, ?_⟩
  · intro h
    rw [activateShield, if_pos h]
    exact ⟨rfl, rfl, rfl⟩
  · intro h
    rw [activateShield, if_neg]
    rintro ⟨_, h2⟩
    rw [h] at h2
    cases h2
  · intro h
    rw [activateShield, if_neg]
    rintro ⟨h1, _⟩
    exact absurd h1 (not_lt.mpr h)
  · intro h
    by_cases hc : 0 < s.user.shield ∧ s.player.shield_active = false
    · rw [activateShield, if_pos hc]
      show 0 ≤ s.user.shield - 1
      omega
    · rw [activateShield, if_neg hc]
      exact h
  · unfold activateShield
    split <;> rfl
  · unfold activateShield
    split <;> rfl
  · unfold activateShield
    split <;> rfl

/-- Witness for C5 at concrete sessions: one owned charge and inactive
shield activates (count 1 becomes 0, timer 120); an already-active shield
is a no-op. -/
theorem c5_witness :
    (activateShield { baseSession with
        user := { Account.init with shield := 1 } }).user.shield = 0
  ∧ (activateShield { baseSession with
        user := { Account.init with shield := 1 } }).player.shield_active = true
  ∧ (activateShield { baseSession with
        user := { Account.init with shield := 1 } }).shield_timer = 120
  ∧ activateShield { baseSession with
        user := { Account.init with shield := 1 },
        player := { Player.init with shield_active := true } }
      = { baseSession with
          user := { Account.init with shield := 1 },
          player := { Player.init with shield_active := true } } := by
  obtain ⟨h1, h2, h3⟩ := (c5_activate_shield { baseSession with
      user := { Account.init with shield := 1 } }).1 ⟨by decide, rfl⟩
  refine ⟨?_, h2, h3, ?_⟩
  · rw [h1]; decide
  · exact (c5_activate_shield _).2.1 rfl

/-- The anti-cheat monitor only ever ORs the detection condition into the
cheat flag. -/
theorem antiCheat_cheat (e : ℚ) (s : Session) :
    (antiCheatStep e s).cheat_detected
      = (s.cheat_detected || decide (0 < e ∧ 5 < (s.score : ℚ) / e)) := by
  unfold antiCheatStep
  split
  · next hc => simp [hc]
  · next hc => simp [hc]

/-- The anti-cheat monitor only ever ORs the detection condition into the
game-over flag. -/
theorem antiCheat_game_over (e : ℚ) (s : Session) :
    (antiCheatStep e s).game_over
      = (s.game_over || decide (0 < e ∧ 5 < (s.score : ℚ) / e)) := by
  unfold antiCheatStep
  split
  · next hc => simp [hc]
  · next hc => simp [hc]

/-- The anti-cheat monitor touches nothing but the two flags. -/
theorem antiCheat_rest (e : ℚ) (s : Session) :
    (antiCheatStep e s).score = s.score
  ∧ (antiCheatStep e s).player = s.player
  ∧ (antiCheatStep e s).obstacles = s.obstacles
  ∧ (antiCheatStep e s).spawn_timer = s.spawn_timer
  ∧ (antiCheatStep e s).shield_timer = s.shield_timer
  ∧ (antiCheatStep e s).user = s.user
  ∧ (antiCheatStep e s).daily_pot = s.daily_pot
  ∧ (antiCheatStep e s).daily_winner = s.daily_winner := by
  unfold antiCheatStep
  split <;> exact ⟨rfl, rfl, rfl, rfl, rfl, rfl, rfl, rfl⟩

/-- The shield tick does not touch the cheat flag. -/
theorem shieldStep_cheat (s : Session) :
    (shieldStep s).cheat_detected = s.cheat_detected := by
  simp only [shieldStep]
  split
  · split <;> rfl
  · rfl

/-- The spawn step does not touch the cheat flag. -/
theorem spawnStep_cheat (w h : ℕ) (s : Session) :
    (spawnStep w h s).cheat_detected = s.cheat_detected := by
  simp only [spawnStep]
  split <;> rfl

/-- The collision step does not touch the cheat flag. -/
theorem collideStep_cheat (s : Session) :
    (collideStep s).cheat_detected = s.cheat_detected := by
  unfold collideStep
  split <;> rfl

/-- The daily-winner step does not touch the cheat flag. -/
theorem dailyStep_cheat (s : Session) :
    (dailyStep s).cheat_detected = s.cheat_detected := by
  unfold dailyStep
  split <;> rfl

/-- The whole simulation step does not touch the cheat flag. -/
theorem simStep_cheat (w h : ℕ) (s : Session) :
    (simStep w h s).cheat_detected = s.cheat_detected := by
  unfold simStep
  split
  · rfl
  · simp only [dailyStep_cheat, collideStep_cheat, spawnStep_cheat,
      shieldStep_cheat]

/-- The event loop does not touch the cheat flag of the state it carries. -/
theorem handleEvents_cheat (ev : List GEvent) (s : Session) :
    (handleEvents s ev).state.cheat_detected = s.cheat_detected := by
  induction ev generalizing s with
  | nil => rfl
  | cons e rest ih =>
      cases e with
      | space =>
          simp only [handleEvents]
          split
          · rfl
          · rw [ih]
      | keyX =>
          simp only [handleEvents]
          rw [ih]
          unfold activateShield
          split <;> rfl
      | keyD => rfl
      | other =>
          simp only [handleEvents]
          rw [ih]

/-- Across one whole frame, the cheat flag is exactly the old flag ORed
with this frame's detection condition. -/
theorem frame_cheat (e : ℚ) (ev : List GEvent) (w h : ℕ) (s : Session) :
    (frame e ev w h s).state.cheat_detected
      = (s.cheat_detected || decide (0 < e ∧ 5 < (s.score : ℚ) / e)) := by
  have hac := antiCheat_cheat e s
  have hsc := (antiCheat_rest e s).1
  have hev := handleEvents_cheat ev (antiCheatStep e s)
  unfold frame
  cases hres : handleEvents (antiCheatStep e s) ev with
  | cont s1 =>
      rw [hres] at hev
      show (simStep w h s1).cheat_detected = _
      rw [simStep_cheat]
      rw [show s1.cheat_detected = (antiCheatStep e s).cheat_detected from hev,
        hac]
  | ret o s1 =>
      rw [hres] at hev
      show s1.cheat_detected = _
      rw [show s1.cheat_detected = (antiCheatStep e s).cheat_detected from hev,
        hac]

/-- C4: in every frame the cheat flag (and forced game over) is ORed with
exactly the condition `elapsed > 0 and score / elapsed > 5`; at
`elapsed = 0` the monitor is a no-op; score 100 at 10 s fires it and score
40 at 10 s does not; once set the flag survives any whole frame, and a
SPACE acknowledgment while game over with the flag set returns the `Cheat`
outcome. -/
theorem c4_anti_cheat (s : Session) (e : ℚ) (ev : List GEvent) (w h : ℕ) :
    ((antiCheatStep e s).cheat_detected
        = (s.cheat_detected || decide (0 < e ∧ 5 < (s.score : ℚ) / e)))
  ∧ ((antiCheatStep e s).game_over
        = (s.game_over || decide (0 < e ∧ 5 < (s.score : ℚ) / e)))
  ∧ antiCheatStep 0 s = s
  ∧ (antiCheatStep 10 { s with
        score := 100,
        cheat_detected := false }).cheat_detected = true
  ∧ (antiCheatStep 10 { s with
        score := 40,
        cheat_detected := false }).cheat_detected = false
  ∧ (frame e ev w h { s with cheat_detected := true }).state.cheat_detected
      = true
  ∧ (∀ t : Session,
      handleEvents { t with game_over := true, cheat_detected := true }
          [GEvent.space]
        = FrameResult.ret Outcome.cheat
            { t with game_over := true, cheat_detected := true }) := by
  refine ⟨antiCheat_cheat e s, antiCheat_game_over e s, ?_, ?_, ?_, ?_, ?_⟩
  · rw [antiCheatStep, if_neg]
    rintro ⟨hlt, _⟩
    exact lt_irrefl 0 hlt
  · rw [antiCheat_cheat]
    simp only [Bool.false_or, decide_eq_true_eq]
    norm_num
  · rw [antiCheat_cheat]
    simp only [Bool.false_or, decide_eq_false_iff_not]
    intro hc
    norm_num at hc
  · rw [frame_cheat]
    simp
  · intro t
    rfl

/-- The shield tick touches only the shield timer and flag. -/
theorem shieldStep_keeps (s : Session) :
    (shieldStep s).score = s.score
  ∧ (shieldStep s).obstacles = s.obstacles
  ∧ (shieldStep s).spawn_timer = s.spawn_timer
  ∧ (shieldStep s).game_over = s.game_over
  ∧ (shieldStep s).user = s.user
  ∧ (shieldStep s).daily_pot = s.daily_pot
  ∧ (shieldStep s).daily_winner = s.daily_winner := by
  simp only [shieldStep]
  split
  · split <;> exact ⟨rfl, rfl, rfl, rfl, rfl, rfl, rfl⟩
  · exact ⟨rfl, rfl, rfl, rfl, rfl, rfl, rfl⟩

/-- The spawn step touches only the obstacle list and the spawn timer. -/
theorem spawnStep_keeps (w h : ℕ) (s : Session) :
    (spawnStep w h s).score = s.score
  ∧ (spawnStep w h s).player = s.player
  ∧ (spawnStep w h s).game_over = s.game_over
  ∧ (spawnStep w h s).shield_timer = s.shield_timer
  ∧ (spawnStep w h s).user = s.user
  ∧ (spawnStep w h s).daily_pot = s.daily_pot
  ∧ (spawnStep w h s).daily_winner = s.daily_winner := by
  simp only [spawnStep]
  split <;> exact ⟨rfl, rfl, rfl, rfl, rfl, rfl, rfl⟩

/-- The collision step touches only the game-over flag. -/
theorem collideStep_keeps (s : Session) :
    (collideStep s).score = s.score
  ∧ (collideStep s).player = s.player
  ∧ (collideStep s).obstacles = s.obstacles
  ∧ (collideStep s).spawn_timer = s.spawn_timer
  ∧ (collideStep s).shield_timer = s.shield_timer
  ∧ (collideStep s).user = s.user
  ∧ (collideStep s).daily_pot = s.daily_pot
  ∧ (collideStep s).daily_winner = s.daily_winner := by
  unfold collideStep
  split <;> exact ⟨rfl, rfl, rfl, rfl, rfl, rfl, rfl, rfl⟩

/-- The daily-winner step touches only best-score-today and the winner. -/
theorem dailyStep_keeps (s : Session) :
    (dailyStep s).score = s.score
  ∧ (dailyStep s).player = s.player
  ∧ (dailyStep s).obstacles = s.obstacles
  ∧ (dailyStep s).spawn_timer = s.spawn_timer
  ∧ (dailyStep s).game_over = s.game_over
  ∧ (dailyStep s).shield_timer = s.shield_timer
  ∧ (dailyStep s).user.balance = s.user.balance
  ∧ (dailyStep s).user.shield = s.user.shield
  ∧ (dailyStep s).user.double_jump = s.user.double_jump
  ∧ (dailyStep s).daily_pot = s.daily_pot := by
  unfold dailyStep
  split <;> exact ⟨rfl, rfl, rfl, rfl, rfl, rfl, rfl, rfl, rfl, rfl⟩

/-- The shield-activation handler touches only the owned count, the shield
flag and the shield timer. -/
theorem activateShield_keeps (s : Session) :
    (activateShield s).score = s.score
  ∧ (activateShield s).obstacles = s.obstacles
  ∧ (activateShield s).spawn_timer = s.spawn_timer
  ∧ (activateShield s).game_over = s.game_over
  ∧ (activateShield s).cheat_detected = s.cheat_detected
  ∧ (activateShield s).daily_pot = s.daily_pot
  ∧ (activateShield s).daily_winner = s.daily_winner
  ∧ (activateShield s).user.balance = s.user.balance
  ∧ (activateShield s).user.double_jump = s.user.double_jump
  ∧ (activateShield s).user.daily_score = s.user.daily_score
  ∧ (activateShield s).player.x = s.player.x
  ∧ (activateShield s).player.y = s.player.y
  ∧ (activateShield s).player.vel_y = s.player.vel_y
  ∧ (activateShield s).player.on_ground = s.player.on_ground
  ∧ (activateShield s).player.jumps_available = s.player.jumps_available := by
  unfold activateShield
  split <;>
    exact ⟨rfl, rfl, rfl, rfl, rfl, rfl, rfl, rfl, rfl, rfl, rfl, rfl, rfl,
      rfl, rfl⟩

/-- With the shield inactive, the collision loop ORs into game over exactly
the existence of an overlapping obstacle. -/
theorem collideStep_game_over (s : Session)
    (h : s.player.shield_active = false) :
    (collideStep s).game_over
      = (s.game_over
          || s.obstacles.any (fun o => colliderect s.player.rect o.rect)) := by
  unfold collideStep
  by_cases hc :
      s.obstacles.any (fun o => colliderect s.player.rect o.rect) = true
  · rw [if_pos ⟨h, hc⟩, hc]
    simp
  · have hfalse :
        s.obstacles.any (fun o => colliderect s.player.rect o.rect) = false := by
      revert hc
      cases s.obstacles.any (fun o => colliderect s.player.rect o.rect) <;> simp
    rw [if_neg, hfalse, Bool.or_false]
    rintro ⟨_, h2⟩
    exact hc h2

/-- C6: while the shield is active an overlap changes nothing at all (no
game over, no score change, shield stays); while active the timer drops by
one per simulated frame and the flag clears exactly when the decremented
timer reaches zero; once the shield is inactive, an overlap ORs game over
in, and the collision step never touches score, player, obstacles or the
account. -/
theorem c6_shield_blocks (s : Session) :
    collideStep { s with player := { s.player with shield_active := true } }
      = { s with player := { s.player with shield_active := true } }
  ∧ (shieldStep { s with
        player := { s.player with shield_active := true } }).shield_timer
      = s.shield_timer - 1
  ∧ (s.shield_timer - 1 ≤ 0 →
      (shieldStep { s with
          player := { s.player with
            shield_active := true } }).player.shield_active = false)
  ∧ (0 < s.shield_timer - 1 →
      (shieldStep { s with
          player := { s.player with
            shield_active := true } }).player.shield_active = true)
  ∧ (collideStep { s with
        player := { s.player with shield_active := false } }).game_over
      = (s.game_over
          || s.obstacles.any (fun o => colliderect s.player.rect o.rect))
  ∧ ((collideStep s).score = s.score
      ∧ (collideStep s).player = s.player
      ∧ (collideStep s).obstacles = s.obstacles
      ∧ (collideStep s).user = s.user
      ∧ (collideStep s).shield_timer = s.shield_timer) := by
  refine ⟨?_, ?_, ?_, ?_, ?_, ?_⟩
  · rw [collideStep, if_neg]
    rintro ⟨h1, _⟩
    simp at h1
  · by_cases ht : s.shield_timer - 1 ≤ 0
    · simp [shieldStep, ht]
    · simp [shieldStep, ht]
  · intro ht
    simp [shieldStep, ht]
  · intro ht
    simp [shieldStep, not_le.mpr ht]
  · exact collideStep_game_over _ rfl
  · have hk := collideStep_keeps s
    exact ⟨hk.1, hk.2.1, hk.2.2.1, hk.2.2.2.2.2.1, hk.2.2.2.2.1⟩

/-- Witness for C6: with timer 1 the post-tick shield is cleared, with
timer 120 it stays active. -/
theorem c6_witness :
    (shieldStep { baseSession with
        player := { Player.init with shield_active := true },
        shield_timer := 1 }).player.shield_active = false
  ∧ (shieldStep { baseSession with
        player := { Player.init with shield_active := true },
        shield_timer := 120 }).player.shield_active = true := by
  constructor
  · exact (c6_shield_blocks { baseSession with
      shield_timer := 1 }).2.2.1 (by decide)
  · exact (c6_shield_blocks { baseSession with
      shield_timer := 120 }).2.2.2.1 (by decide)

/-- The obstacle update loop computed in closed form: the new score adds
exactly one point per obstacle that is fully past the left edge after
moving, and the surviving list is the moved list with exactly those
obstacles removed, in order. -/
theorem moveObstacles_spec (speed : ℚ) (obs : List Obstacle) (n : ℕ) :
    (moveObstacles speed obs n).2
      = n + obs.countP (fun o => decide (o.x - speed + (o.width : ℚ) < 0))
  ∧ (moveObstacles speed obs n).1
      = (obs.map (Obstacle.move speed)).filter
          (fun o => !decide (o.x + (o.width : ℚ) < 0)) := by
  induction obs generalizing n with
  | nil => exact ⟨by simp [moveObstacles], rfl⟩
  | cons o rest ih =>
      simp only [moveObstacles, Obstacle.move, List.map_cons]
      by_cases hlt : o.x - speed + (o.width : ℚ) < 0
      · rw [if_pos hlt]
        constructor
        · rw [(ih (n + 1)).1, List.countP_cons]
          simp only [hlt, decide_True, if_true, decide_eq_true_eq]
          omega
        · rw [(ih (n + 1)).2, List.filter_cons]
          simp [hlt]
      · rw [if_neg hlt]
        constructor
        · show (moveObstacles speed rest n).2 = _
          rw [(ih n).1, List.countP_cons]
          simp [hlt]
        · show _ :: (moveObstacles speed rest n).1 = _
          rw [(ih n).2, List.filter_cons]
          simp [hlt]

/-- The obstacle loop never lowers the score. -/
theorem moveObstacles_mono (speed : ℚ) (obs : List Obstacle) (n : ℕ) :
    n ≤ (moveObstacles speed obs n).2 := by
  rw [(moveObstacles_spec speed obs n).1]
  omega

/-- The event loop never changes the score of the state it carries. -/
theorem handleEvents_score (ev : List GEvent) (s : Session) :
    (handleEvents s ev).state.score = s.score := by
  induction ev generalizing s with
  | nil => rfl
  | cons e rest ih =>
      cases e with
      | space =>
          simp only [handleEvents]
          split
          · rfl
          · rw [ih]
      | keyX =>
          simp only [handleEvents]
          rw [ih]
          exact (activateShield_keeps s).1
      | keyD => rfl
      | other =>
          simp only [handleEvents]
          rw [ih]

/-- The simulation step never lowers the score. -/
theorem simStep_score_mono (w h : ℕ) (s : Session) :
    s.score ≤ (simStep w h s).score := by
  unfold simStep
  split
  · exact le_refl _
  · rw [(dailyStep_keeps _).1, (collideStep_keeps _).1]
    refine le_trans (le_of_eq ?_) (moveObstacles_mono _ _ _)
    rw [(spawnStep_keeps w h _).1, (shieldStep_keeps _).1]

/-- One whole frame never lowers the score. -/
theorem frame_score_mono (e : ℚ) (ev : List GEvent) (w h : ℕ) (s : Session) :
    s.score ≤ (frame e ev w h s).state.score := by
  have hev := handleEvents_score ev (antiCheatStep e s)
  have hac := (antiCheat_rest e s).1
  unfold frame
  cases hres : handleEvents (antiCheatStep e s) ev with
  | cont s1 =>
      rw [hres] at hev
      show s.score ≤ (simStep w h s1).score
      refine le_trans (le_of_eq ?_) (simStep_score_mono w h s1)
      rw [show s1.score = (antiCheatStep e s).score from hev, hac]
  | ret o s1 =>
      rw [hres] at hev
      show s.score ≤ s1.score
      rw [show s1.score = (antiCheatStep e s).score from hev, hac]

/-- A whole run of frames never lowers the score. -/
theorem runFrames_score_mono (inputs : List FrameInput) (s : Session) :
    s.score ≤ (runFrames s inputs).state.score := by
  induction inputs generalizing s with
  | nil => exact le_refl _
  | cons i rest ih =>
      simp only [runFrames]
      cases hres : frame i.elapsed i.events i.spawnW i.spawnH s with
      | cont s1 =>
          have h1 := frame_score_mono i.elapsed i.events i.spawnW i.spawnH s
          rw [hres] at h1
          exact le_trans h1 (ih s1)
      | ret o s1 =>
          have h1 := frame_score_mono i.elapsed i.events i.spawnW i.spawnH s
          rw [hres] at h1
          exact h1

/-- C7: the session score never decreases (per obstacle pass, per frame and
across a whole run); one point is scored for exactly each obstacle whose
right edge crosses the left screen edge this frame; such obstacles are
removed at the same moment (survivors are exactly the moved obstacles still
touching the screen, in order), every surviving obstacle still satisfies
`0 ≤ x + width`, and a freshly spawned obstacle does too — so a retired
obstacle is never seen, collided with, or counted again. -/
theorem c7_score_obstacles (speed : ℚ) (obs : List Obstacle) (n : ℕ)
    (s : Session) (e : ℚ) (ev : List GEvent) (w h : ℕ)
    (inputs : List FrameInput) :
    n ≤ (moveObstacles speed obs n).2
  ∧ (moveObstacles speed obs n).2
      = n + obs.countP (fun o => decide (o.x - speed + (o.width : ℚ) < 0))
  ∧ (moveObstacles speed obs n).1
      = (obs.map (Obstacle.move speed)).filter
          (fun o => !decide (o.x + (o.width : ℚ) < 0))
  ∧ ((moveObstacles speed obs n).1.all
        (fun o => decide (0 ≤ o.x + (o.width : ℚ))) = true)
  ∧ (0 ≤ (Obstacle.spawn w h).x + ((Obstacle.spawn w h).width : ℚ))
  ∧ s.score ≤ (frame e ev w h s).state.score
  ∧ s.score ≤ (runFrames s inputs).state.score := by
  refine ⟨moveObstacles_mono speed obs n, (moveObstacles_spec speed obs n).1,
    (moveObstacles_spec speed obs n).2, ?_, ?_,
    frame_score_mono e ev w h s, runFrames_score_mono inputs s⟩
  · rw [List.all_eq_true]
    intro o ho
    rw [(moveObstacles_spec speed obs n).2] at ho
    have := List.of_mem_filter ho
    simp only [Bool.not_eq_true', decide_eq_false_iff_not, not_lt] at this
    simpa using this
  · have hw : (0:ℚ) ≤ (w : ℚ) := Nat.cast_nonneg w
    simp only [Obstacle.spawn, WIDTH]
    linarith

/-- The shield-activation handler either leaves the player alone or only
sets the shield flag. -/
theorem activateShield_player (s : Session) :
    (activateShield s).player = s.player
  ∨ (activateShield s).player = { s.player with shield_active := true } := by
  unfold activateShield
  split
  · right; rfl
  · left; rfl

/-- The shield tick either leaves the player alone or only clears the
shield flag. -/
theorem shieldStep_player (s : Session) :
    (shieldStep s).player = s.player
  ∨ (shieldStep s).player = { s.player with shield_active := false } := by
  simp only [shieldStep]
  split
  · split
    · right; rfl
    · left; rfl
  · left; rfl

/-- The simulation step moves the player only through reachable operations. -/
theorem simStep_preach (w h : ℕ) (s : Session) (hp : PReach s.player) :
    PReach (simStep w h s).player := by
  unfold simStep
  split
  · exact hp
  · rw [(dailyStep_keeps _).2.1, (collideStep_keeps _).2.1]
    show PReach
      (spawnStep w h (shieldStep { s with player := s.player.update })).player
    rw [(spawnStep_keeps w h _).2.1]
    rcases shieldStep_player { s with player := s.player.update } with h3 | h3 <;>
      rw [h3]
    · exact PReach.update hp
    · exact PReach.shield false (PReach.update hp)

/-- The event loop moves the player only through reachable operations. -/
theorem handleEvents_preach (ev : List GEvent) (s : Session)
    (hp : PReach s.player) : PReach (handleEvents s ev).state.player := by
  induction ev generalizing s with
  | nil => exact hp
  | cons ev0 rest ih =>
      cases ev0 with
      | space =>
          simp only [handleEvents]
          split
          · exact hp
          · exact ih _ (PReach.jump hp)
      | keyX =>
          simp only [handleEvents]
          apply ih
          rcases activateShield_player s with hx | hx <;> rw [hx]
          · exact hp
          · exact PReach.shield true hp
      | keyD => exact hp
      | other =>
          simp only [handleEvents]
          exact ih _ hp

/-- A whole frame moves the player only through reachable operations. -/
theorem frame_preach (e : ℚ) (ev : List GEvent) (w h : ℕ) (s : Session)
    (hp : PReach s.player) : PReach (frame e ev w h s).state.player := by
  have hac : (antiCheatStep e s).player = s.player := (antiCheat_rest e s).2.1
  have hhe := handleEvents_preach ev (antiCheatStep e s) (by rw [hac]; exact hp)
  unfold frame
  cases hres : handleEvents (antiCheatStep e s) ev with
  | cont s1 =>
      rw [hres] at hhe
      exact simStep_preach w h s1 hhe
  | ret o s1 =>
      rw [hres] at hhe
      exact hhe

/-- C8: for every reachable player state, grounded implies zero vertical
velocity, a full jump charge and sitting exactly on the ground line — in
particular after any physics update; the update zeroes the velocity (with
grounding and charge refill) exactly when the integrated position reaches
the ground line, and otherwise only performs the gravity integration; and
every session frame produces only reachable player states. -/
theorem c8_grounded_invariant (p : Player) (s : Session) (e : ℚ)
    (ev : List GEvent) (w h : ℕ) :
    (PReach p → p.on_ground = true →
        p.vel_y = 0 ∧ p.jumps_available = 1 ∧ p.y = HEIGHT - p.height - 50)
  ∧ (PReach p → p.update.on_ground = true →
        p.update.vel_y = 0 ∧ p.update.jumps_available = 1)
  ∧ (HEIGHT - p.height - 50 ≤ p.y + (p.vel_y + GRAVITY) →
        p.update.vel_y = 0 ∧ p.update.y = HEIGHT - p.height - 50
      ∧ p.update.on_ground = true ∧ p.update.jumps_available = 1)
  ∧ (p.y + (p.vel_y + GRAVITY) < HEIGHT - p.height - 50 →
        p.update.vel_y = p.vel_y + GRAVITY
      ∧ p.update.y = p.y + (p.vel_y + GRAVITY)
      ∧ p.update.on_ground = p.on_ground
      ∧ p.update.jumps_available = p.jumps_available)
  ∧ (PReach s.player → PReach (frame e ev w h s).state.player) := by
  refine ⟨?_, ?_, ?_, ?_, frame_preach e ev w h s⟩
  · intro hp hg
    exact (preach_inv hp).1 hg
  · intro hp hg
    have hthis := (preach_inv (PReach.update hp)).1 hg
    exact ⟨hthis.1, hthis.2.1⟩
  · intro hcl
    have hupd : p.update = { p with
        y := HEIGHT - p.height - 50,
        vel_y := 0,
        on_ground := true,
        jumps_available := 1 } := by
      simp [Player.update, hcl]
    rw [hupd]
    exact ⟨rfl, rfl, rfl, rfl⟩
  · intro hcl
    have hupd : p.update = { p with
        y := p.y + (p.vel_y + GRAVITY),
        vel_y := p.vel_y + GRAVITY } := by
      simp [Player.update, not_le.mpr hcl]
    rw [hupd]
    exact ⟨rfl, rfl, rfl, rfl⟩

/-- Witness for C8 at the initial player: the first physics update clamps
to the ground with zero velocity and a full jump charge. -/
theorem c8_witness :
    Player.init.update.vel_y = 0 ∧ Player.init.update.jumps_available = 1
  ∧ Player.init.update.on_ground = true := by
  have h := (c8_grounded_invariant Player.init baseSession 0 [] 20
    20).2.2.1 (by norm_num [Player.init, HEIGHT, GRAVITY])
  exact ⟨h.1, h.2.2.2, h.2.2.1⟩

/-- Once game over, the simulation block is skipped entirely. -/
theorem simStep_gameover (w h : ℕ) (s : Session) (hg : s.game_over = true) :
    simStep w h s = s := by
  unfold simStep
  rw [if_pos hg]

/-- What stays frozen from a game-over state `s` to a later state `t`: the
track, the score, the spawn timer, the whole physics part of the player,
the ledger and the account's money and items-independent fields; and the
game stays over. (The shield fields, the owned shield count and the cheat
flag are deliberately absent: they can still change after game over.) -/
def frozen (s t : Session) : Prop :=
  t.obstacles = s.obstacles ∧ t.score = s.score
  ∧ t.spawn_timer = s.spawn_timer
  ∧ t.player.x = s.player.x ∧ t.player.y = s.player.y
  ∧ t.player.vel_y = s.player.vel_y
  ∧ t.player.on_ground = s.player.on_ground
  ∧ t.player.jumps_available = s.player.jumps_available
  ∧ t.daily_winner = s.daily_winner ∧ t.daily_pot = s.daily_pot
  ∧ t.user.daily_score = s.user.daily_score
  ∧ t.user.balance = s.user.balance
  ∧ t.user.double_jump = s.user.double_jump
  ∧ t.game_over = true

/-- A game-over state is frozen relative to itself. -/
theorem frozen_self (s : Session) (hg : s.game_over = true) : frozen s s :=
  ⟨rfl, rfl, rfl, rfl, rfl, rfl, rfl, rfl, rfl, rfl, rfl, rfl, rfl, hg⟩

/-- Frozen-ness composes. -/
theorem frozen_trans {s t u : Session} (h1 : frozen s t) (h2 : frozen t u) :
    frozen s u := by
  obtain ⟨a1, a2, a3, a4, a5, a6, a7, a8, a9, a10, a11, a12, a13, a14⟩ := h1
  obtain ⟨b1, b2, b3, b4, b5, b6, b7, b8, b9, b10, b11, b12, b13, b14⟩ := h2
  exact ⟨b1.trans a1, b2.trans a2, b3.trans a3, b4.trans a4, b5.trans a5,
    b6.trans a6, b7.trans a7, b8.trans a8, b9.trans a9, b10.trans a10,
    b11.trans a11, b12.trans a12, b13.trans a13, b14⟩

/-- The target of a frozen step is itself game over. -/
theorem frozen_game_over {s t : Session} (h : frozen s t) :
    t.game_over = true :=
  h.2.2.2.2.2.2.2.2.2.2.2.2.2

/-- The shield-activation handler freezes everything it should when the
game is over. -/
theorem activateShield_frozen (s : Session) (hg : s.game_over = true) :
    frozen s (activateShield s) := by
  unfold frozen activateShield
  split <;>
    exact ⟨rfl, rfl, rfl, rfl, rfl, rfl, rfl, rfl, rfl, rfl, rfl, rfl, rfl, hg⟩

/-- The anti-cheat monitor freezes everything it should when the game is
over, and leaves the game over. -/
theorem antiCheat_frozen (e : ℚ) (s : Session) (hg : s.game_over = true) :
    frozen s (antiCheatStep e s)
  ∧ (antiCheatStep e s).game_over = true := by
  unfold frozen antiCheatStep
  split
  · exact ⟨⟨rfl, rfl, rfl, rfl, rfl, rfl, rfl, rfl, rfl, rfl, rfl, rfl, rfl,
      rfl⟩, rfl⟩
  · exact ⟨⟨rfl, rfl, rfl, rfl, rfl, rfl, rfl, rfl, rfl, rfl, rfl, rfl, rfl,
      hg⟩, hg⟩

/-- The event loop freezes everything it should when the game is over. -/
theorem handleEvents_frozen (ev : List GEvent) (s : Session)
    (hg : s.game_over = true) : frozen s (handleEvents s ev).state := by
  induction ev generalizing s with
  | nil => exact frozen_self s hg
  | cons e rest ih =>
      cases e with
      | space =>
          simp only [handleEvents]
          rw [if_pos hg]
          exact frozen_self s hg
      | keyX =>
          simp only [handleEvents]
          have h1 := activateShield_frozen s hg
          exact frozen_trans h1 (ih (activateShield s) (frozen_game_over h1))
      | keyD => exact frozen_self s hg
      | other =>
          simp only [handleEvents]
          exact ih s hg

/-- One whole frame freezes everything it should when the game is over. -/
theorem frame_frozen (e : ℚ) (ev : List GEvent) (w h : ℕ) (s : Session)
    (hg : s.game_over = true) : frozen s (frame e ev w h s).state := by
  obtain ⟨h1, hg1⟩ := antiCheat_frozen e s hg
  have h2 := handleEvents_frozen ev (antiCheatStep e s) hg1
  unfold frame
  cases hres : handleEvents (antiCheatStep e s) ev with
  | cont s1 =>
      rw [hres] at h2
      show frozen s (simStep w h s1)
      rw [simStep_gameover w h s1 (frozen_game_over h2)]
      exact frozen_trans h1 h2
  | ret o s1 =>
      rw [hres] at h2
      exact frozen_trans h1 h2

/-- Any number of later frames freeze everything they should when the game
is over. -/
theorem runFrames_frozen (inputs : List FrameInput) (s : Session)
    (hg : s.game_over = true) : frozen s (runFrames s inputs).state := by
  induction inputs generalizing s with
  | nil => exact frozen_self s hg
  | cons i rest ih =>
      simp only [runFrames]
      cases hres : frame i.elapsed i.events i.spawnW i.spawnH s with
      | cont s1 =>
          have h1 := frame_frozen i.elapsed i.events i.spawnW i.spawnH s hg
          rw [hres] at h1
          exact frozen_trans h1 (ih s1 (frozen_game_over h1))
      | ret o s1 =>
          have h1 := frame_frozen i.elapsed i.events i.spawnW i.spawnH s hg
          rw [hres] at h1
          exact h1

/-- C9 counterexample: in a game-over state with one owned shield charge
and the shield inactive, an X key press in a later frame still activates
the shield — the player state and the persisted owned count change after
the transition to game over, contradicting the claim that the player state
is unchanged until the session returns. -/
theorem c9_counterexample :
    ({ baseSession with
        game_over := true,
        user := { Account.init with shield := 1 } } :
          Session).player.shield_active = false
  ∧ (frame 0 [GEvent.keyX] 20 20 { baseSession with
        game_over := true,
        user := { Account.init with shield := 1 } }).state.player.shield_active
      = true
  ∧ (frame 0 [GEvent.keyX] 20 20 { baseSession with
        game_over := true,
        user := { Account.init with shield := 1 } }).state.user.shield = 0 := by
  refine ⟨rfl, rfl, by decide⟩

/-- C9 (amended): once the run is game over, later frames perform no
physics, shield-tick, obstacle, spawn, score, pot, daily-winner or balance
updates — all those fields are frozen until the session returns; only the
shield-activation input (shield flag, timer, owned count) and the cheat
flag can still change. -/
theorem c9_gameover_terminal (s : Session) (e : ℚ) (ev : List GEvent)
    (w h : ℕ) (inputs : List FrameInput) :
    frozen { s with game_over := true }
      (frame e ev w h { s with game_over := true }).state
  ∧ frozen { s with game_over := true }
      (runFrames { s with game_over := true } inputs).state :=
  ⟨frame_frozen e ev w h _ rfl, runFrames_frozen inputs _ rfl⟩

/-- Overwrite only the owned double-jump count of the session's account
snapshot. -/
def setDJ (s : Session) (d : ℤ) : Session :=
  { s with user := { s.user with double_jump := d } }

/-- Map a function over the state carried by a frame result, keeping the
outcome. -/
def FrameResult.mapS (f : Session → Session) : FrameResult → FrameResult
  | .cont s => .cont (f s)
  | .ret o s => .ret o (f s)

/-- The state of a mapped frame result. -/
theorem FrameResult.mapS_state (f : Session → Session) (r : FrameResult) :
    (FrameResult.mapS f r).state = f r.state := by
  cases r <;> rfl

/-- The outcome of a mapped frame result. -/
theorem FrameResult.mapS_out (f : Session → Session) (r : FrameResult) :
    (FrameResult.mapS f r).out = r.out := by
  cases r <;> rfl

/-- The anti-cheat monitor commutes with overwriting the double-jump count:
it never reads it. -/
theorem antiCheat_setDJ (e : ℚ) (s : Session) (d : ℤ) :
    antiCheatStep e (setDJ s d) = setDJ (antiCheatStep e s) d := by
  by_cases hc : 0 < e ∧ 5 < (s.score : ℚ) / e
  · simp [antiCheatStep, setDJ, hc]
  · simp [antiCheatStep, setDJ, hc]

/-- The shield-activation handler commutes with overwriting the double-jump
count: it never reads it. -/
theorem activateShield_setDJ (s : Session) (d : ℤ) :
    activateShield (setDJ s d) = setDJ (activateShield s) d := by
  by_cases hc : 0 < s.user.shield ∧ s.player.shield_active = false
  · simp [activateShield, setDJ, hc]
  · simp [activateShield, setDJ, hc]

/-- The shield tick commutes with overwriting the double-jump count. -/
theorem shieldStep_setDJ (s : Session) (d : ℤ) :
    shieldStep (setDJ s d) = setDJ (shieldStep s) d := by
  by_cases ha : s.player.shield_active = true
  · by_cases ht : s.shield_timer - 1 ≤ 0
    · simp [shieldStep, setDJ, ha, ht]
    · simp [shieldStep, setDJ, ha, ht]
  · simp [shieldStep, setDJ, ha]

/-- The spawn step commutes with overwriting the double-jump count. -/
theorem spawnStep_setDJ (w h : ℕ) (s : Session) (d : ℤ) :
    spawnStep w h (setDJ s d) = setDJ (spawnStep w h s) d := by
  simp only [spawnStep, setDJ]
  split <;> simp_all

/-- The collision step commutes with overwriting the double-jump count. -/
theorem collideStep_setDJ (s : Session) (d : ℤ) :
    collideStep (setDJ s d) = setDJ (collideStep s) d := by
  simp only [collideStep, setDJ]
  split <;> simp_all

/-- The daily-winner step commutes with overwriting the double-jump count. -/
theorem dailyStep_setDJ (s : Session) (d : ℤ) :
    dailyStep (setDJ s d) = setDJ (dailyStep s) d := by
  by_cases hc : s.user.daily_score < (s.score : ℤ)
  · cases hw : s.daily_winner with
    | none => simp [dailyStep, setDJ, hc, hw]
    | some nw =>
        by_cases hb : nw.2 < (s.score : ℤ)
        · simp [dailyStep, setDJ, hc, hw, hb]
        · simp [dailyStep, setDJ, hc, hw, hb]
  · simp [dailyStep, setDJ, hc]

/-- Projection of `setDJ`: the score is untouched. -/
theorem setDJ_score (s : Session) (d : ℤ) : (setDJ s d).score = s.score := rfl

/-- Projection of `setDJ`: the obstacles are untouched. -/
theorem setDJ_obstacles (s : Session) (d : ℤ) :
    (setDJ s d).obstacles = s.obstacles := rfl

/-- Updating the player commutes with `setDJ`. -/
theorem setDJ_update_player (s : Session) (d : ℤ) :
    ({ setDJ s d with player := (setDJ s d).player.update } : Session)
      = setDJ { s with player := s.player.update } d := rfl

/-- Overwriting obstacles and score commutes with `setDJ`. -/
theorem setDJ_set_obs (s : Session) (d : ℤ) (l : List Obstacle) (n : ℕ) :
    ({ setDJ s d with obstacles := l, score := n } : Session)
      = setDJ { s with obstacles := l, score := n } d := rfl

/-- The simulation block written out, in the source's order, when the game
is not over. -/
theorem simStep_eq (w h : ℕ) (s : Session) (hg : s.game_over = false) :
    simStep w h s
      = dailyStep (collideStep
          { spawnStep w h (shieldStep { s with player := s.player.update }) with
            obstacles := (moveObstacles
              (BASE_OBSTACLE_SPEED +
                ((shieldStep { s with
                    player := s.player.update }).score : ℚ) * 0.05)
              (spawnStep w h
                (shieldStep { s with player := s.player.update })).obstacles
              (spawnStep w h
                (shieldStep { s with player := s.player.update })).score).1,
            score := (moveObstacles
              (BASE_OBSTACLE_SPEED +
                ((shieldStep { s with
                    player := s.player.update }).score : ℚ) * 0.05)
              (spawnStep w h
                (shieldStep { s with player := s.player.update })).obstacles
              (spawnStep w h
                (shieldStep { s with player := s.player.update })).score).2 }) := by
  unfold simStep
  rw [if_neg]
  simp [hg]

/-- The simulation step commutes with overwriting the double-jump count:
none of its components ever reads it. -/
theorem simStep_setDJ (w h : ℕ) (s : Session) (d : ℤ) :
    simStep w h (setDJ s d) = setDJ (simStep w h s) d := by
  by_cases hg : s.game_over = true
  · rw [simStep_gameover w h (setDJ s d) hg, simStep_gameover w h s hg]
  · have hg2 : s.game_over = false := by
      revert hg; cases s.game_over <;> simp
    have hgx : (setDJ s d).game_over = false := hg2
    rw [simStep_eq w h (setDJ s d) hgx, simStep_eq w h s hg2,
      setDJ_update_player, shieldStep_setDJ, spawnStep_setDJ]
    simp only [setDJ_score, setDJ_obstacles]
    rw [setDJ_set_obs, collideStep_setDJ, dailyStep_setDJ]

/-- The event loop commutes with overwriting the double-jump count and
returns the same outcome. -/
theorem handleEvents_setDJ (ev : List GEvent) (s : Session) (d : ℤ) :
    handleEvents (setDJ s d) ev
      = FrameResult.mapS (fun t => setDJ t d) (handleEvents s ev) := by
  induction ev generalizing s with
  | nil => rfl
  | cons e rest ih =>
      cases e with
      | space =>
          simp only [handleEvents]
          by_cases hg : s.game_over = true
          · rw [if_pos hg, if_pos (show (setDJ s d).game_over = true from hg)]
            rfl
          · rw [if_neg hg, if_neg (show ¬(setDJ s d).game_over = true from hg)]
            rw [show ({ setDJ s d with
                player := (setDJ s d).player.jump } : Session)
              = setDJ { s with player := s.player.jump } d from rfl]
            exact ih { s with player := s.player.jump }
      | keyX =>
          simp only [handleEvents]
          rw [activateShield_setDJ]
          exact ih (activateShield s)
      | keyD => rfl
      | other =>
          simp only [handleEvents]
          exact ih s

/-- A whole frame commutes with overwriting the double-jump count. -/
theorem frame_setDJ (e : ℚ) (ev : List GEvent) (w h : ℕ) (s : Session)
    (d : ℤ) :
    frame e ev w h (setDJ s d)
      = FrameResult.mapS (fun t => setDJ t d) (frame e ev w h s) := by
  unfold frame
  rw [antiCheat_setDJ, handleEvents_setDJ]
  cases handleEvents (antiCheatStep e s) ev with
  | cont s1 =>
      simp only [FrameResult.mapS]
      rw [simStep_setDJ]
  | ret o s1 => rfl

/-- The anti-cheat monitor never touches the double-jump count. -/
theorem antiCheat_dj (e : ℚ) (s : Session) :
    (antiCheatStep e s).user.double_jump = s.user.double_jump := by
  unfold antiCheatStep
  split <;> rfl

/-- The shield-activation handler never touches the double-jump count. -/
theorem activateShield_dj (s : Session) :
    (activateShield s).user.double_jump = s.user.double_jump := by
  unfold activateShield
  split <;> rfl

/-- The shield tick never touches the double-jump count. -/
theorem shieldStep_dj (s : Session) :
    (shieldStep s).user.double_jump = s.user.double_jump := by
  simp only [shieldStep]
  split
  · split <;> rfl
  · rfl

/-- The spawn step never touches the double-jump count. -/
theorem spawnStep_dj (w h : ℕ) (s : Session) :
    (spawnStep w h s).user.double_jump = s.user.double_jump := by
  simp only [spawnStep]
  split <;> rfl

/-- The collision step never touches the double-jump count. -/
theorem collideStep_dj (s : Session) :
    (collideStep s).user.double_jump = s.user.double_jump := by
  unfold collideStep
  split <;> rfl

/-- The daily-winner step never touches the double-jump count. -/
theorem dailyStep_dj (s : Session) :
    (dailyStep s).user.double_jump = s.user.double_jump := by
  unfold dailyStep
  split <;> rfl

/-- The simulation step never touches the double-jump count. -/
theorem simStep_dj (w h : ℕ) (s : Session) :
    (simStep w h s).user.double_jump = s.user.double_jump := by
  unfold simStep
  split
  · rfl
  · simp only [dailyStep_dj, collideStep_dj, spawnStep_dj, shieldStep_dj]

/-- The event loop never touches the double-jump count. -/
theorem handleEvents_dj (ev : List GEvent) (s : Session) :
    (handleEvents s ev).state.user.double_jump = s.user.double_jump := by
  induction ev generalizing s with
  | nil => rfl
  | cons e rest ih =>
      cases e with
      | space =>
          simp only [handleEvents]
          split
          · rfl
          · rw [ih]
      | keyX =>
          simp only [handleEvents]
          rw [ih]
          exact activateShield_dj s
      | keyD => rfl
      | other =>
          simp only [handleEvents]
          rw [ih]

/-- One whole frame never touches the double-jump count. -/
theorem frame_dj (e : ℚ) (ev : List GEvent) (w h : ℕ) (s : Session) :
    (frame e ev w h s).state.user.double_jump = s.user.double_jump := by
  have hev := handleEvents_dj ev (antiCheatStep e s)
  unfold frame
  cases hres : handleEvents (antiCheatStep e s) ev with
  | cont s1 =>
      rw [hres] at hev
      show (simStep w h s1).user.double_jump = _
      rw [simStep_dj,
        show s1.user.double_jump = (antiCheatStep e s).user.double_jump
          from hev,
        antiCheat_dj]
  | ret o s1 =>
      rw [hres] at hev
      show s1.user.double_jump = _
      rw [show s1.user.double_jump = (antiCheatStep e s).user.double_jump
          from hev,
        antiCheat_dj]

/-- A whole run of frames never touches the double-jump count. -/
theorem runFrames_dj (inputs : List FrameInput) (s : Session) :
    (runFrames s inputs).state.user.double_jump = s.user.double_jump := by
  induction inputs generalizing s with
  | nil => rfl
  | cons i rest ih =>
      simp only [runFrames]
      cases hres : frame i.elapsed i.events i.spawnW i.spawnH s with
      | cont s1 =>
          have h1 := frame_dj i.elapsed i.events i.spawnW i.spawnH s
          rw [hres] at h1
          rw [ih s1]
          exact h1
      | ret o s1 =>
          have h1 := frame_dj i.elapsed i.events i.spawnW i.spawnH s
          rw [hres] at h1
          exact h1

/-- C10: the simulation never reads or writes the account's double-jump
count — it is identical before and after any run of frames and after
session start — and the whole frame function commutes with overwriting the
count (same resulting state up to the overwritten field, same outcome), so
the availability of the mid-air extra jump is independent of how many
double-jump power-ups were purchased. -/
theorem c10_double_jump_unused (s : Session) (d : ℤ) (e : ℚ)
    (ev : List GEvent) (w h : ℕ) (inputs : List FrameInput)
    (username : String) (user : Account) (pot : ℤ)
    (winner : Option (String × ℤ)) :
    (runFrames s inputs).state.user.double_jump = s.user.double_jump
  ∧ frame e ev w h (setDJ s d)
      = FrameResult.mapS (fun t => setDJ t d) (frame e ev w h s)
  ∧ (frame e ev w h (setDJ s d)).out = (frame e ev w h s).out
  ∧ (∀ t, sessionStart username user pot winner = some t →
      t.user.double_jump = user.double_jump) := by
  refine ⟨runFrames_dj inputs s, frame_setDJ e ev w h s d, ?_, ?_⟩
  · rw [frame_setDJ, FrameResult.mapS_out]
  · intro t ht
    unfold sessionStart at ht
    split at ht
    · cases ht
    · obtain h := Option.some.inj ht
      rw [← h]

/-- Witness for C10: overwriting the double-jump count of the base session
with 7 commutes with a SPACE frame, and a started session keeps the
account's count. -/
theorem c10_witness :
    (frame 0 [GEvent.space] 20 20 (setDJ baseSession 7)).state
      = setDJ ((frame 0 [GEvent.space] 20 20 baseSession).state) 7
  ∧ ∃ t, sessionStart "alice" Account.init 0 none = some t
      ∧ t.user.double_jump = 0 := by
  constructor
  · rw [(c10_double_jump_unused baseSession 7 0 [GEvent.space] 20 20 []
      "alice" Account.init 0 none).2.1, FrameResult.mapS_state]
  · obtain ⟨t, ht⟩ : ∃ t, sessionStart "alice" Account.init 0 none = some t :=
      ⟨_, rfl⟩
    refine ⟨t, ht, ?_⟩
    have hdj := (c10_double_jump_unused baseSession 0 0 [] 20 20 [] "alice"
      Account.init 0 none).2.2.2 t ht
    exact hdj.trans rfl

/-- A concrete store for the settlement witness: one account, pot 101, the
daily winner recorded with score 12. -/
def w3 : World :=
  { accounts := fun u => if u = "alice" then some Account.init else none,
    daily_pot := 101, daily_winner := some ("alice", 12), owner_balance := 0 }

/-- Witness for C3 at pot 101: the winner's balance 100 becomes exactly 150
and the operator accrues exactly 51. -/
theorem c3_witness :
    (end_of_day { w3 with
        daily_winner := some ("alice", 12) }).accounts "alice"
      = some { Account.init with balance := 150 }
  ∧ (end_of_day { w3 with
      daily_winner := some ("alice", 12) }).owner_balance = 51 := by
  obtain ⟨h1, h2⟩ := (c3_end_of_day_settlement w3 "alice" 12 Account.init).1 rfl
  constructor
  · rw [h1]
    decide
  · rw [h2]
    decide
